import Mathlib

/-! Verification development for the ThinLineRadio server.

This file shallowly embeds the components of the Go sources that the
verified properties are about:

* `server/reconnection.go` — the reconnection manager
  (`SaveDisconnectedState`, `BufferCallForDisconnected`,
  `RestoreClientState`, the cleanup sweep, `getUserKey`);
* `server/central_webhooks.go` — the user-revocation webhook handler;
* `server/log.go` — the paginated `Logs.Search` operation;
* the `FFMpeg.Convert` audio converter.

Go machine integers that matter here are small identifiers and sizes,
modelled as `Nat`; SQL bigint timestamps are modelled as `Int`.  Wall-clock
instants are passed explicitly (`now`) where the Go code calls
`time.Now()`.  Types that the provided sources only reference
(`Call`, `User`, `Livefeed`, `Client`, `Message` and the helpers
`Livefeed.IsEnabled`, `userHasAccess`, `requiresUserAuth`) are modelled
from the specification and carry a doc comment saying so. -/

/-- Modelled from the spec: the `Call` record type is referenced but not
defined in the provided sources.  Spec section 3 lists its attributes; only
the fields used by the verified components are kept (identity, origin
references, and audio content). -/
structure Call where
  id : Nat
  systemRef : Nat
  talkgroupRef : Nat
  audio : List Nat
  audioMime : String
  audioFilename : String
deriving DecidableEq

/-- Modelled from the spec: a user ACL scope is either the wildcard `*` or
an enumerated set of numeric references (spec sections 3 and 9). -/
inductive Scope where
  | wildcard : Scope
  | enumerated (refs : List Nat) : Scope
deriving DecidableEq

/-- Whether a scope covers a numeric reference: the wildcard covers
everything, an enumerated scope covers exactly its members. -/
def Scope.covers : Scope → Nat → Bool
  | Scope.wildcard, _ => true
  | Scope.enumerated refs, n => refs.contains n

/-- Modelled from the spec: the `User` record type is referenced but not
defined in the provided sources.  Spec section 3: identified by a numeric
ID and/or a PIN, with `systems`/`talkgroups` ACL scopes and a PIN expiry
(zero meaning never). -/
structure User where
  id : Nat
  pin : String
  systems : Scope
  talkgroups : Scope
  pinExpiresAt : Nat
deriving DecidableEq

/-- Modelled from the spec: `authorize(user, call)` (spec section 4.3
step 3) — the user's `systems` must be `*` or contain `call.systemRef` and
their `talkgroups` must be `*` or contain `call.talkgroupRef`.  The body of
`Controller.userHasAccess` is not among the provided sources. -/
def userHasAccess (user : User) (call : Call) : Bool :=
  user.systems.covers call.systemRef && user.talkgroups.covers call.talkgroupRef

/-- Association-list lookup keyed by a numeric reference, standing in for a
Go `map[uint]...`. -/
def lookupNat {β : Type} : List (Nat × β) → Nat → Option β
  | [], _ => none
  | p :: rest, n => if p.1 = n then some p.2 else lookupNat rest n

/-- Modelled from the spec: the `Livefeed` filter matrix type
(`map[uint]map[uint]bool` in `reconnection.go`) is referenced but not
defined in the provided sources.  Spec section 3: a mapping
`systemRef → (talkgroupRef → enabled)`. -/
structure Livefeed where
  matrix : List (Nat × List (Nat × Bool))
deriving DecidableEq

/-- Modelled from the spec: a call for `(sys, tg)` passes the filter iff
the entry exists and is true (spec section 3, "Filter matrix").  The body
of `Livefeed.IsEnabled` is not among the provided sources. -/
def Livefeed.IsEnabled (livefeed : Livefeed) (call : Call) : Bool :=
  match lookupNat livefeed.matrix call.systemRef with
  | some talkgroups =>
    match lookupNat talkgroups call.talkgroupRef with
    | some enabled => enabled
    | none => false
  | none => false

/-- Modelled from the spec: message payloads are either a call record or a
fixed error string (spec section 4.6, outbound commands). -/
inductive MessagePayload where
  | call (c : Call) : MessagePayload
  | text (s : String) : MessagePayload
deriving DecidableEq

/-- Modelled from the spec: the outbound message envelope
`{"command": ..., "payload": ...}` (spec section 6). -/
structure Message where
  command : String
  payload : MessagePayload
deriving DecidableEq

/-- Modelled from the spec: the outbound command name for a call delivery
(spec section 4.6); the constant's definition is not among the provided
sources. -/
def MessageCommandCall : String := "call"

/-- Modelled from the spec: the outbound command name for a server error
message (spec section 4.6); the constant's definition is not among the
provided sources. -/
def MessageCommandError : String := "error"

/-- Modelled from the spec: a session outbox is a bounded queue of
outbound messages (spec section 3, "Session"); it stands in for the Go
buffered channel `client.Send`. -/
structure Outbox where
  capacity : Nat
  msgs : List Message
deriving DecidableEq

/-- Non-blocking send on the bounded outbox: corresponds to the Go
`select { case ch <- msg: ... default: ... }` idiom — succeeds exactly
when the buffered channel has room. -/
def Outbox.trySend (outbox : Outbox) (m : Message) : Option Outbox :=
  if outbox.msgs.length < outbox.capacity then
    some { outbox with msgs := outbox.msgs ++ [m] }
  else
    none

/-- Modelled from the spec: the `Client` session type is referenced but
not defined in the provided sources.  Spec section 3, "Session": a user
reference (null while unauthenticated), an outbox, and a filter matrix. -/
structure Client where
  user : Option User
  livefeed : Livefeed
  send : Outbox
deriving DecidableEq

/-- DisconnectedClientState from `server/reconnection.go`: the state of a
recently disconnected client. -/
structure DisconnectedClientState where
  user : User
  lastSeen : Nat
  missedCalls : List Call
  livefeed : Livefeed
  maxBufferSize : Nat
deriving DecidableEq

/-- ReconnectionManager from `server/reconnection.go`.  The Go `States`
map is modelled as an association list; `requiresUserAuth` models the
answer of `rm.controller.requiresUserAuth()` (the spec's
`userAuthRequired` option), whose body is not among the provided
sources. -/
structure ReconnectionManager where
  states : List (String × DisconnectedClientState)
  holdDuration : Nat
  maxBufferSize : Nat
  enabled : Bool
  requiresUserAuth : Bool
deriving DecidableEq

/-- Lookup of a disconnected-state record by user key
(`rm.States[userKey]`). -/
def findState (states : List (String × DisconnectedClientState)) (key : String) :
    Option DisconnectedClientState :=
  (states.find? (fun p => decide (p.1 = key))).map (fun p => p.2)

/-- Deletion of a user key from the states map (`delete(rm.States, key)`). -/
def removeState (states : List (String × DisconnectedClientState)) (key : String) :
    List (String × DisconnectedClientState) :=
  states.filter (fun p => !decide (p.1 = key))

/-- Map-assignment of a user key (`rm.States[key] = state`): any previous
binding for the key is replaced. -/
def setState (states : List (String × DisconnectedClientState)) (key : String)
    (state : DisconnectedClientState) : List (String × DisconnectedClientState) :=
  removeState states key ++ [(key, state)]

/-- getUserKey from `server/reconnection.go`: prefer the numeric ID,
falling back to the PIN (`fmt.Sprintf` renderings "id:%d" / "pin:%s"). -/
def ReconnectionManager.getUserKey (_rm : ReconnectionManager) (user : User) : String :=
  if user.id ≠ 0 then "id:" ++ toString user.id else "pin:" ++ user.pin

/-- SaveDisconnectedState from `server/reconnection.go`: if enabled and
the client is authenticated, store a fresh record (deep-copied filter,
`LastSeen = now`, empty buffer, frozen `MaxBufferSize`). -/
def ReconnectionManager.SaveDisconnectedState (rm : ReconnectionManager) (now : Nat)
    (client : Client) : ReconnectionManager :=
  match client.user with
  | none => rm
  | some user =>
    if rm.enabled = false then rm
    else
      { rm with
        states := setState rm.states (rm.getUserKey user)
          { user := user
            lastSeen := now
            missedCalls := []
            livefeed := client.livefeed
            maxBufferSize := rm.maxBufferSize } }

/-- The per-record body of `BufferCallForDisconnected`
(`server/reconnection.go` lines 102–127): skip expired records, skip when
the frozen filter rejects the call, skip when user auth is required and
the user lacks access; otherwise append, dropping the oldest buffered call
when the buffer is full. -/
def bufferStep (requiresAuth : Bool) (holdDuration now : Nat) (call : Call)
    (state : DisconnectedClientState) : DisconnectedClientState :=
  if holdDuration < now - state.lastSeen then state
  else if state.livefeed.IsEnabled call = false then state
  else if requiresAuth && !userHasAccess state.user call then state
  else if state.missedCalls.length < state.maxBufferSize then
    { state with missedCalls := state.missedCalls ++ [call] }
  else
    { state with missedCalls := state.missedCalls.drop 1 ++ [call] }

/-- BufferCallForDisconnected from `server/reconnection.go`: when enabled,
apply `bufferStep` to every stored record. -/
def ReconnectionManager.BufferCallForDisconnected (rm : ReconnectionManager) (now : Nat)
    (call : Call) : ReconnectionManager :=
  if rm.enabled = false then rm
  else
    { rm with
      states := rm.states.map
        (fun p => (p.1, bufferStep rm.requiresUserAuth rm.holdDuration now call p.2)) }

/-- The replay loop spawned by `RestoreClientState`
(`server/reconnection.go` lines 173–193): send each buffered call with a
non-blocking send, stopping at the first refusal; returns the final outbox
and the success count. -/
def sendBuffered (outbox : Outbox) : List Call → Outbox × Nat
  | [] => (outbox, 0)
  | c :: rest =>
    match outbox.trySend { command := MessageCommandCall, payload := MessagePayload.call c } with
    | some outbox2 =>
      let r := sendBuffered outbox2 rest
      (r.1, r.2 + 1)
    | none => (outbox, 0)

/-- RestoreClientState from `server/reconnection.go`: consume the record
for the reconnecting user, install its frozen filter on the session and
replay the buffered calls; expired records are deleted without replay.
Returns the updated manager, the updated client and the Go boolean
result. -/
def ReconnectionManager.RestoreClientState (rm : ReconnectionManager) (now : Nat)
    (client : Client) : ReconnectionManager × Client × Bool :=
  match client.user with
  | none => (rm, client, false)
  | some user =>
    if rm.enabled = false then (rm, client, false)
    else
      match findState rm.states (rm.getUserKey user) with
      | none => (rm, client, false)
      | some state =>
        if rm.holdDuration < now - state.lastSeen then
          ({ rm with states := removeState rm.states (rm.getUserKey user) }, client, false)
        else
          ({ rm with states := removeState rm.states (rm.getUserKey user) },
           { client with
             livefeed := state.livefeed
             send := (sendBuffered client.send state.missedCalls).1 },
           true)

/-- One pass of the cleanup goroutine started by `StartCleanup`
(`server/reconnection.go` lines 211–224): drop every record whose grace
window has expired. -/
def ReconnectionManager.cleanupSweep (rm : ReconnectionManager) (now : Nat) :
    ReconnectionManager :=
  { rm with
    states := rm.states.filter (fun p => !decide (rm.holdDuration < now - p.2.lastSeen)) }

/-- The ownership test of the revoke handler
(`server/central_webhooks.go` line 242): a live session belongs to the
revoked user when it is authenticated and its user's numeric ID matches. -/
def clientOwnedBy (client : Client) (user : User) : Bool :=
  match client.user with
  | some cu => decide (cu.id = user.id)
  | none => false

/-- The `select`/`default` send of the revoke handler: enqueue the message
when the outbox has room, otherwise leave the outbox unchanged. -/
def trySendOrDrop (outbox : Outbox) (m : Message) : Outbox :=
  match outbox.trySend m with
  | some outbox2 => outbox2
  | none => outbox

/-- The fixed revocation message sent by the revoke handler
(`server/central_webhooks.go` line 244). -/
def revokeMessage : Message :=
  { command := MessageCommandError
    payload := MessagePayload.text "Access revoked by central management" }

/-- The core of `Api.CentralWebhookUserRevokeHandler`
(`server/central_webhooks.go` lines 234–253), after the user has been
found: bump the user's PIN expiry to now, then for every live session of
that user attempt a non-blocking send of the revocation error message and
hand the session to the unregister channel.  Returns the updated user, the
updated session list and the list of sessions handed to `Unregister`. -/
def CentralWebhookUserRevoke (now : Nat) (user : User) (clients : List Client) :
    User × List Client × List Client :=
  ( { user with pinExpiresAt := now },
    clients.map (fun c =>
      if clientOwnedBy c user then { c with send := trySendOrDrop c.send revokeMessage }
      else c),
    clients.filter (fun c => clientOwnedBy c user) )

/-- One raw row of the `logs` table as fetched by `Logs.Search`
(`server/log.go`): every scanned column is nullable
(`sql.NullInt64` / `sql.NullString`). -/
structure LogRow where
  logId : Option Int
  level : Option String
  message : Option String
  timestamp : Option Int
deriving DecidableEq

/-- Log from `server/log.go`: one parsed entry of a search result page.
`dateTime` keeps the underlying millisecond timestamp. -/
structure Log where
  id : Int
  dateTime : Int
  level : String
  message : String
deriving DecidableEq

/-- LogsSearchOptions from `server/log.go`.  The Go fields are `any` and
are consulted through type switches whose default branches ignore the
value; a well-typed present value is `some`, everything else is `none`. -/
structure LogsSearchOptions where
  date : Option Int
  level : Option String
  limit : Option Nat
  offset : Option Nat
  keyword : Option String
  sort : Option Int
deriving DecidableEq

/-- LogsSearchResults from `server/log.go` (the fields the verified
properties are about). -/
structure LogsSearchResults where
  count : Nat
  hasMore : Bool
  logs : List Log
deriving DecidableEq

/-- The hard timestamp clamp constant of `Logs.Search`
(`server/log.go` line 217): 9999-12-31 23:59:59 UTC in milliseconds. -/
def maxSafeTimestampMs : Int := 253402300800000

/-- Range of millisecond timestamps whose calendar year lies in 1..9999:
spec section 6 fixes this as `[-62135596800000, 253402300799999]`.  This
models the Go check `y := t.Year(); y < 1 || y > 9999` on
`t = time.UnixMilli(ts)`. -/
def yearInRange (ts : Int) : Bool :=
  decide (-62135596800000 ≤ ts) && decide (ts ≤ 253402300799999)

/-- SQL semantics of the optional `"level" = '<v>'` condition: a NULL
level compares unequal to every value. -/
def levelCond (options : LogsSearchOptions) (row : LogRow) : Bool :=
  match options.level with
  | some v =>
    match row.level with
    | some lv => decide (lv = v)
    | none => false
  | none => true

/-- Whether `pat` occurs as a contiguous run inside `hay`. -/
def containsSeq (pat : List Char) : List Char → Bool
  | [] => pat.isEmpty
  | c :: rest => pat.isPrefixOf (c :: rest) || containsSeq pat rest

/-- Lower-cased character list of a string (ILIKE is case-insensitive). -/
def lowerChars (s : String) : List Char :=
  s.data.map Char.toLower

/-- SQL semantics of the optional
`"message" ILIKE '%<escaped>%' ESCAPE ...` condition: the SQL wildcards in
the user's term are escaped in the Go code, so it is a case-insensitive
literal substring match; a NULL message never matches; an empty term adds
no condition. -/
def keywordCond (options : LogsSearchOptions) (row : LogRow) : Bool :=
  match options.keyword with
  | some v =>
    if v = "" then true
    else
      match row.message with
      | some m => containsSeq (lowerChars v) (lowerChars m)
      | none => false
  | none => true

/-- SQL semantics of the unconditional clamp
`"timestamp" > 0 AND "timestamp" < 253402300800000`
(`server/log.go` line 218): NULL timestamps fail it. -/
def clampCond (row : LogRow) : Bool :=
  match row.timestamp with
  | some t => decide (0 < t) && decide (t < maxSafeTimestampMs)
  | none => false

/-- Whether the requested sort order is descending: the Go code orders
`DESC` exactly when the `sort` option is an `int` below zero. -/
def sortDesc (options : LogsSearchOptions) : Bool :=
  match options.sort with
  | some v => decide (v < 0)
  | none => false

/-- SQL semantics of `"timestamp" >= <d>`: NULL timestamps fail it. -/
def tsGe (row : LogRow) (d : Int) : Bool :=
  match row.timestamp with
  | some t => decide (d ≤ t)
  | none => false

/-- SQL semantics of the date filter of `Logs.Search`
(`server/log.go` lines 221–234): a picked date gives
`"timestamp" >= date`; with no date, descending searches get a default
24-hour look-back window from `now` and ascending searches get no
condition. -/
def dateCond (options : LogsSearchOptions) (now : Int) (row : LogRow) : Bool :=
  match options.date with
  | some d => tsGe row d
  | none =>
    if sortDesc options then tsGe row (now - 86400000)
    else true

/-- The full WHERE clause of the `Logs.Search` query. -/
def matchRow (options : LogsSearchOptions) (now : Int) (row : LogRow) : Bool :=
  levelCond options row && keywordCond options row && clampCond row &&
    dateCond options now row

/-- The effective page limit of `Logs.Search`: the requested limit capped
at 500, defaulting to 200. -/
def effLimit (options : LogsSearchOptions) : Nat :=
  match options.limit with
  | some v => min 500 v
  | none => 200

/-- The effective offset of `Logs.Search`, defaulting to 0. -/
def effOffset (options : LogsSearchOptions) : Nat :=
  (options.offset).getD 0

/-- Sort key for `ORDER BY "timestamp"`; rows reaching the ORDER BY all
satisfy the WHERE clamp, so the default is immaterial. -/
def tsKey (row : LogRow) : Int :=
  (row.timestamp).getD 0

/-- The `ORDER BY "timestamp" ASC|DESC` step of the `Logs.Search`
query. -/
def sortRows (rows : List LogRow) (options : LogsSearchOptions) : List LogRow :=
  if sortDesc options then rows.insertionSort (fun a b => tsKey b ≤ tsKey a)
  else rows.insertionSort (fun a b => tsKey a ≤ tsKey b)

/-- The SQL query issued by `Logs.Search` (`server/log.go` line 258):
filter by the WHERE clause, order by timestamp in the requested direction,
then apply `OFFSET offset LIMIT limit+1` — one extra row is fetched to
detect further pages. -/
def fetchRows (db : List LogRow) (options : LogsSearchOptions) (now : Int) :
    List LogRow :=
  ((sortRows (db.filter (matchRow options now)) options).drop
    (effOffset options)).take (effLimit options + 1)

/-- The per-row validation of the scan loop of `Logs.Search`
(`server/log.go` lines 279–309): require a non-NULL id, a non-NULL
non-empty level and message, and a positive timestamp whose year is in
1..9999; any failure skips the row. -/
def scanRow (row : LogRow) : Option Log :=
  match row.logId with
  | none => none
  | some i =>
    match row.level with
    | none => none
    | some lv =>
      if lv.length = 0 then none
      else
        match row.message with
        | none => none
        | some msg =>
          if msg.length = 0 then none
          else
            match row.timestamp with
            | none => none
            | some t =>
              if decide (0 < t) && yearInRange t then
                some { id := i, dateTime := t, level := lv, message := msg }
              else none

/-- The scan loop of `Logs.Search` (`server/log.go` lines 270–315): every
fetched row increments `totalRows`; rows passing validation are appended
to the page while it holds fewer than `limit` entries.  Returns the page
and `totalRows`. -/
def processFetched (limit : Nat) : List LogRow → List Log → List Log × Nat
  | [], page => (page, 0)
  | row :: rest, page =>
    let page2 :=
      match scanRow row with
      | some l => if page.length < limit then page ++ [l] else page
      | none => page
    let r := processFetched limit rest page2
    (r.1, r.2 + 1)

/-- Search from `server/log.go` (`Logs.Search`), over a database modelled
as the list of rows of the `logs` table: build the WHERE clause, fetch
`limit+1` rows past the offset, run the scan loop, then derive `HasMore`
and the approximate `Count`. -/
def Logs.Search (db : List LogRow) (options : LogsSearchOptions) (now : Int) :
    LogsSearchResults :=
  { count :=
      if effLimit options < (processFetched (effLimit options) (fetchRows db options now) []).2 then
        effOffset options +
          (processFetched (effLimit options) (fetchRows db options now) []).1.length + 1
      else
        effOffset options +
          (processFetched (effLimit options) (fetchRows db options now) []).1.length
    hasMore :=
      decide (effLimit options < (processFetched (effLimit options) (fetchRows db options now) []).2)
    logs := (processFetched (effLimit options) (fetchRows db options now) []).1 }

/-- Modelled from the spec: the audio-conversion mode enum
`{disabled, conservative, standard, aggressive, maximum}` (spec section
4.1) in declaration order; the Go constants are not among the provided
sources. -/
def AUDIO_CONVERSION_DISABLED : Nat := 0

/-- Modelled from the spec: the upper normalization mode of the enum of
spec section 4.1 (`maximum`, the fourth non-disabled mode). -/
def AUDIO_CONVERSION_MAXIMUM_NORM : Nat := 4

/-- FFMpeg from the audio converter source: availability and version
flags plus the one-shot warning latch. -/
structure FFMpeg where
  available : Bool
  version43 : Bool
  warned : Bool
deriving DecidableEq

/-- Modelled from the spec: the admin options consulted by the converter
(`audioCodec`, `audioBitrate`, spec section 6); the `Options` struct is
not among the provided sources.  `none` stands for the Go nil pointer. -/
structure ConverterOptions where
  audioCodec : String
  audioBitrate : Nat
deriving DecidableEq

/-- Whether an opus target codec is configured (Go:
`options != nil && options.AudioCodec == "opus"`). -/
def opusConfigured (options : Option ConverterOptions) : Bool :=
  match options with
  | some o => decide (o.audioCodec = "opus")
  | none => false

/-- Extension of the final path element starting at its last dot, or the
empty string (Go `path.Ext`). -/
def pathExt (s : String) : String :=
  let ext := s.data.foldl (fun acc c =>
    if c = '/' then none
    else if c = '.' then some [c]
    else acc.map (fun l => l ++ [c])) (none : Option (List Char))
  match ext with
  | some l => String.mk l
  | none => ""

/-- Go `strings.TrimSuffix`: remove one trailing occurrence of the suffix
when present. -/
def trimSuffix (s suffix : String) : String :=
  if suffix.data.isSuffixOf s.data ∧ suffix ≠ "" then
    String.mk (s.data.take (s.data.length - suffix.data.length))
  else s

/-- Convert from the audio converter source (`FFMpeg.Convert`): the
external `ffmpeg` run is abstracted by `runResult` (`some output` when the
subprocess exits cleanly with that stdout, `none` when it fails); the
command-line arguments built from metadata, normalization mode and bitrate
only shape that run.  On success the output replaces the audio and the
filename/MIME are rewritten per codec; on failure the call is left
untouched and only a warning is printed.  Returns the updated call, the
updated converter state and the Go error result. -/
def FFMpeg.Convert (ffmpeg : FFMpeg) (call : Call) (mode : Nat)
    (options : Option ConverterOptions) (runResult : Option (List Nat)) :
    Call × FFMpeg × Option String :=
  if mode = AUDIO_CONVERSION_DISABLED then (call, ffmpeg, none)
  else if ffmpeg.available = false then
    if ffmpeg.warned = false then
      (call, { ffmpeg with warned := true },
       some "ffmpeg is not available, no audio conversion will be performed")
    else (call, ffmpeg, none)
  else
    let ffmpeg2 :=
      if 1 ≤ mode ∧ mode ≤ AUDIO_CONVERSION_MAXIMUM_NORM ∧ ffmpeg.version43 = false ∧
          ffmpeg.warned = false then
        { ffmpeg with warned := true }
      else ffmpeg
    let useOpus := opusConfigured options
    match runResult with
    | some output =>
      if useOpus then
        ({ call with
           audio := output
           audioFilename := trimSuffix call.audioFilename (pathExt call.audioFilename) ++ ".opus"
           audioMime := "audio/opus" }, ffmpeg2, none)
      else
        ({ call with
           audio := output
           audioFilename := trimSuffix call.audioFilename (pathExt call.audioFilename) ++ ".m4a"
           audioMime := "audio/mp4" }, ffmpeg2, none)
    | none => (call, ffmpeg2, none)

/-! Helper lemmas shared by the claim theorems. -/

theorem findState_map (f : DisconnectedClientState → DisconnectedClientState)
    (states : List (String × DisconnectedClientState)) (key : String) :
    findState (states.map (fun p => (p.1, f p.2))) key = (findState states key).map f := by
  induction states with
  | nil => rfl
  | cons p rest ih =>
    by_cases h : p.1 = key
    · simp [findState, List.find?_cons_of_pos, h]
    · simp only [findState, List.map_cons] at *
      rw [List.find?_cons_of_neg _ (by simpa using h),
        List.find?_cons_of_neg _ (by simpa using h)]
      exact ih

theorem findState_removeState_self (states : List (String × DisconnectedClientState))
    (key : String) : findState (removeState states key) key = none := by
  unfold findState removeState
  have hnone : List.find? (fun p => decide (p.1 = key))
      (states.filter (fun p => !decide (p.1 = key))) = none := by
    rw [List.find?_eq_none]
    intro x hx
    rcases List.mem_filter.1 hx with ⟨_, hpred⟩
    simpa using hpred
  rw [hnone]
  rfl

theorem sendBuffered_spec (calls : List Call) (outbox : Outbox) :
    (sendBuffered outbox calls).1 =
      { capacity := outbox.capacity
        msgs := outbox.msgs ++
          (calls.take (outbox.capacity - outbox.msgs.length)).map
            (fun c => { command := MessageCommandCall
                        payload := MessagePayload.call c }) } ∧
    (sendBuffered outbox calls).2 =
      min calls.length (outbox.capacity - outbox.msgs.length) := by
  induction calls generalizing outbox with
  | nil => simp [sendBuffered]
  | cons c rest ih =>
    unfold sendBuffered Outbox.trySend
    by_cases h : outbox.msgs.length < outbox.capacity
    · simp only [h, if_true]
      obtain ⟨ih1, ih2⟩ := ih { outbox with msgs := outbox.msgs ++ [_] }
      constructor
      · rw [ih1]
        simp only [List.length_append, List.length_cons, List.length_nil]
        have hsub : outbox.capacity - outbox.msgs.length =
            (outbox.capacity - (outbox.msgs.length + 1)) + 1 := by omega
        rw [hsub, List.take_succ_cons]
        simp
      · rw [ih2]
        simp only [List.length_append, List.length_cons, List.length_nil,
          List.length_cons]
        omega
    · simp only [h, if_false]
      have hzero : outbox.capacity - outbox.msgs.length = 0 := by omega
      simp [hzero]

/-- Keys of the disconnected-states map. -/
def keysOf (states : List (String × DisconnectedClientState)) : List String :=
  states.map (fun p => p.1)

/-- The map-of-records invariant: no user key occurs twice. -/
def keysNodup (states : List (String × DisconnectedClientState)) : Prop :=
  (keysOf states).Nodup

/-- Number of disconnected-state records the manager holds for a user. -/
def countRecordsFor (rm : ReconnectionManager) (user : User) : Nat :=
  rm.states.countP (fun p => decide (p.1 = rm.getUserKey user))

theorem keysNodup_removeState (states : List (String × DisconnectedClientState))
    (key : String) (h : keysNodup states) : keysNodup (removeState states key) := by
  unfold keysNodup keysOf removeState at *
  exact List.Nodup.sublist (List.Sublist.map (fun p => p.1) (List.filter_sublist states)) h

theorem keysNodup_setState (states : List (String × DisconnectedClientState))
    (key : String) (state : DisconnectedClientState) (h : keysNodup states) :
    keysNodup (setState states key state) := by
  unfold keysNodup keysOf setState
  rw [List.map_append, List.nodup_append]
  refine ⟨keysNodup_removeState states key h, List.nodup_singleton key, ?_⟩
  intro x hx
  rcases List.mem_map.1 hx with ⟨p, hp, hpx⟩
  rcases List.mem_filter.1 hp with ⟨_, hpred⟩
  have : p.1 ≠ key := by simpa using hpred
  simp only [List.map_cons, List.map_nil, List.mem_singleton]
  rw [← hpx]
  exact this

theorem keysOf_mapValues (f : DisconnectedClientState → DisconnectedClientState)
    (states : List (String × DisconnectedClientState)) :
    keysOf (states.map (fun p => (p.1, f p.2))) = keysOf states := by
  unfold keysOf
  rw [List.map_map]
  rfl

theorem countP_key_le_one (states : List (String × DisconnectedClientState))
    (key : String) (h : keysNodup states) :
    states.countP (fun p => decide (p.1 = key)) ≤ 1 := by
  induction states with
  | nil => simp
  | cons p rest ih =>
    have hrest : keysNodup rest := (List.nodup_cons.1 h).2
    have hnotmem : p.1 ∉ keysOf rest := (List.nodup_cons.1 h).1
    rw [List.countP_cons]
    by_cases hpk : p.1 = key
    · have hzero : rest.countP (fun q => decide (q.1 = key)) = 0 := by
        rw [List.countP_eq_zero]
        intro q hq
        simp only [decide_eq_true_eq]
        intro hqk
        exact hnotmem (hpk ▸ hqk ▸ List.mem_map_of_mem (fun r => r.1) hq)
      simp [hzero, hpk]
    · simpa [hpk] using ih hrest

/-! Claim C9 — audio conversion failure handling. -/

/-- C9: for every call processed by the audio converter with a
non-disabled conversion mode, a failed transcoder run leaves the call's
audio blob, MIME type and filename unchanged and `Convert` reports
success; a successful run replaces the audio blob with the transcoder
output and sets the MIME type to `audio/opus` when the opus codec is
configured and to `audio/mp4` otherwise. -/
theorem convert_failure_nonfatal (ffmpeg : FFMpeg) (call : Call) (mode : Nat)
    (options : Option ConverterOptions)
    (hmode : mode ≠ AUDIO_CONVERSION_DISABLED) (havail : ffmpeg.available = true) :
    ((ffmpeg.Convert call mode options none).1 = call ∧
      (ffmpeg.Convert call mode options none).2.2 = none) ∧
    (∀ output : List Nat,
      (ffmpeg.Convert call mode options (some output)).1.audio = output ∧
      (ffmpeg.Convert call mode options (some output)).1.audioMime =
        (if opusConfigured options then "audio/opus" else "audio/mp4") ∧
      (ffmpeg.Convert call mode options (some output)).2.2 = none) := by
  constructor
  · constructor
    · simp [FFMpeg.Convert, hmode, havail]
    · simp [FFMpeg.Convert, hmode, havail]
  · intro output
    cases hopus : opusConfigured options with
    | true => simp [FFMpeg.Convert, hmode, havail, hopus]
    | false => simp [FFMpeg.Convert, hmode, havail, hopus]

/-- Witness for C9 at a concrete input: a failing run on a concrete call
with the conservative mode keeps the call intact and reports no error. -/
theorem convert_failure_nonfatal_witness :
    ((FFMpeg.mk true true false).Convert
        { id := 3, systemRef := 1, talkgroupRef := 2, audio := [7, 8],
          audioMime := "audio/aac", audioFilename := "x.aac" }
        1 (some { audioCodec := "opus", audioBitrate := 32 }) none).1 =
      { id := 3, systemRef := 1, talkgroupRef := 2, audio := [7, 8],
        audioMime := "audio/aac", audioFilename := "x.aac" } :=
  (convert_failure_nonfatal (FFMpeg.mk true true false)
    { id := 3, systemRef := 1, talkgroupRef := 2, audio := [7, 8],
      audioMime := "audio/aac", audioFilename := "x.aac" }
    1 (some { audioCodec := "opus", audioBitrate := 32 }) (by decide)
    (by decide)).1.1

/-! Claim C5 — revocation webhook handler. -/

/-- A revoked user used by the C5 counterexample. -/
def c5User : User :=
  { id := 7, pin := "r", systems := Scope.wildcard, talkgroups := Scope.wildcard,
    pinExpiresAt := 0 }

/-- A live session of `c5User` whose outbox has no room. -/
def c5FullClient : Client :=
  { user := some c5User
    livefeed := { matrix := [] }
    send := { capacity := 0, msgs := [] } }

/-- Counterexample to C5 as stated: the revoked user owns a live session
whose outbox is full, the session is handed to the unregister channel, yet
no error message is enqueued for it — its outbox is left empty, because
the handler's send is non-blocking (`select` with a `default` branch) and
is skipped when the channel is full. -/
theorem revoke_counterexample :
    clientOwnedBy c5FullClient c5User = true ∧
    (CentralWebhookUserRevoke 100 c5User [c5FullClient]).2.2 = [c5FullClient] ∧
    (CentralWebhookUserRevoke 100 c5User [c5FullClient]).2.1 = [c5FullClient] ∧
    ((CentralWebhookUserRevoke 100 c5User [c5FullClient]).2.1.map
      (fun c => c.send.msgs)) = [[]] := by
  decide

/-- C5 (amended): when a revoke request arrives for an existing user, the
server sets that user's PIN expiry to the current time and, for every live
session owned by that user, attempts a non-blocking enqueue of an error
message announcing revocation — the message is enqueued exactly when the
session's outbox has room and is dropped otherwise — and unregisters the
session; sessions belonging to other users are left untouched and are not
unregistered. -/
theorem revoke_amended (now : Nat) (user : User) (clients : List Client) :
    (CentralWebhookUserRevoke now user clients).1 = { user with pinExpiresAt := now } ∧
    (CentralWebhookUserRevoke now user clients).2.2 =
      clients.filter (fun c => clientOwnedBy c user) ∧
    (∀ c ∈ clients, clientOwnedBy c user = false →
      c ∈ (CentralWebhookUserRevoke now user clients).2.1 ∧
      c ∉ (CentralWebhookUserRevoke now user clients).2.2) ∧
    (∀ c ∈ clients, clientOwnedBy c user = true →
      (c.send.msgs.length < c.send.capacity →
        { c with send := { c.send with msgs := c.send.msgs ++ [revokeMessage] } } ∈
          (CentralWebhookUserRevoke now user clients).2.1) ∧
      (¬ c.send.msgs.length < c.send.capacity →
        c ∈ (CentralWebhookUserRevoke now user clients).2.1) ∧
      c ∈ (CentralWebhookUserRevoke now user clients).2.2) := by
  refine ⟨rfl, rfl, ?_, ?_⟩
  · intro c hc howned
    constructor
    · have hfc : (if clientOwnedBy c user then
          { c with send := trySendOrDrop c.send revokeMessage } else c) = c := by
        simp [howned]
      exact hfc ▸ List.mem_map_of_mem
        (fun c => if clientOwnedBy c user then
          { c with send := trySendOrDrop c.send revokeMessage } else c) hc
    · intro hmem
      have hmem2 : c ∈ clients.filter (fun c => clientOwnedBy c user) := hmem
      rw [List.mem_filter] at hmem2
      rw [howned] at hmem2
      exact Bool.false_ne_true hmem2.2
  · intro c hc howned
    refine ⟨?_, ?_, ?_⟩
    · intro hroom
      have hfc : (if clientOwnedBy c user then
          { c with send := trySendOrDrop c.send revokeMessage } else c) =
          { c with send := { c.send with msgs := c.send.msgs ++ [revokeMessage] } } := by
        simp [howned, trySendOrDrop, Outbox.trySend, hroom]
      exact hfc ▸ List.mem_map_of_mem
        (fun c => if clientOwnedBy c user then
          { c with send := trySendOrDrop c.send revokeMessage } else c) hc
    · intro hfull
      have hfc : (if clientOwnedBy c user then
          { c with send := trySendOrDrop c.send revokeMessage } else c) = c := by
        simp [howned, trySendOrDrop, Outbox.trySend, hfull]
      exact hfc ▸ List.mem_map_of_mem
        (fun c => if clientOwnedBy c user then
          { c with send := trySendOrDrop c.send revokeMessage } else c) hc
    · exact List.mem_filter.2 ⟨hc, howned⟩

/-- A live session of `c5User` whose outbox has room, used by the C5
witness. -/
def c5RoomyClient : Client :=
  { user := some c5User
    livefeed := { matrix := [] }
    send := { capacity := 2, msgs := [] } }

/-- Witness for the amended C5 at a concrete input: revoking `c5User` with
one owned session with outbox room enqueues the revocation message for it
and unregisters it. -/
theorem revoke_amended_witness :
    { c5RoomyClient with
      send := { c5RoomyClient.send with
                msgs := c5RoomyClient.send.msgs ++ [revokeMessage] } } ∈
      (CentralWebhookUserRevoke 100 c5User [c5RoomyClient]).2.1 ∧
    c5RoomyClient ∈ (CentralWebhookUserRevoke 100 c5User [c5RoomyClient]).2.2 := by
  have h := (revoke_amended 100 c5User [c5RoomyClient]).2.2.2 c5RoomyClient
    (by decide) (by decide)
  exact ⟨h.1 (by decide), h.2.2⟩

/-! Claim C1 — buffering of calls for disconnected users. -/

/-- A user with an empty enumerated ACL (no access to any call), used by
the C1 counterexample. -/
def c1User : User :=
  { id := 0, pin := "p", systems := Scope.enumerated [], talkgroups := Scope.enumerated [],
    pinExpiresAt := 0 }

/-- A concrete call on system 1, talkgroup 100. -/
def c1Call : Call :=
  { id := 1, systemRef := 1, talkgroupRef := 100, audio := [], audioMime := "",
    audioFilename := "" }

/-- A disconnected-state record for `c1User` whose frozen filter enables
`(1, 100)`. -/
def c1State : DisconnectedClientState :=
  { user := c1User
    lastSeen := 0
    missedCalls := []
    livefeed := { matrix := [(1, [(100, true)])] }
    maxBufferSize := 2 }

/-- A reconnection manager, enabled, holding the record of `c1User`, on a
server that does not require user authentication. -/
def c1RM : ReconnectionManager :=
  { states := [("pin:p", c1State)]
    holdDuration := 10
    maxBufferSize := 2
    enabled := true
    requiresUserAuth := false }

/-- Counterexample to C1 as stated: `c1State` is a stored record whose
grace window has not expired, `authorize(c1User, c1Call)` fails, the
frozen filter enables the call — and `BufferCallForDisconnected` appends
the call anyway, because the access check is only performed when the
controller requires user authentication, which `c1RM` does not. -/
theorem buffer_call_counterexample :
    userHasAccess c1User c1Call = false ∧
    Livefeed.IsEnabled c1State.livefeed c1Call = true ∧
    ¬ c1RM.holdDuration < 0 - c1State.lastSeen ∧
    findState (c1RM.BufferCallForDisconnected 0 c1Call).states "pin:p" =
      some { c1State with missedCalls := [c1Call] } := by
  decide

/-- C1 (amended): for every call handed to `BufferCallForDisconnected`
and every stored disconnected-state record whose grace window has not yet
expired, the call is appended to that record's FIFO buffer exactly when
the record's frozen filter matrix enables
`(call.systemRef, call.talkgroupRef)` and, in case the controller requires
user authentication, `authorize(user, call)` holds — when user
authentication is not required the access check is skipped; if the buffer
already holds `maxBufferSize` calls, the oldest buffered call is dropped
so the buffer retains the most recent `maxBufferSize` matching calls in
arrival order. -/
theorem buffer_call_amended (rm : ReconnectionManager) (now : Nat) (call : Call)
    (key : String) (state : DisconnectedClientState)
    (henabled : rm.enabled = true)
    (hfound : findState rm.states key = some state)
    (hgrace : ¬ rm.holdDuration < now - state.lastSeen)
    (hlen : state.missedCalls.length ≤ state.maxBufferSize)
    (hmax : 0 < state.maxBufferSize) :
    ∃ state2, findState (rm.BufferCallForDisconnected now call).states key = some state2 ∧
      state2.user = state.user ∧ state2.livefeed = state.livefeed ∧
      state2.lastSeen = state.lastSeen ∧ state2.maxBufferSize = state.maxBufferSize ∧
      ((state.livefeed.IsEnabled call &&
          (!rm.requiresUserAuth || userHasAccess state.user call)) = true →
        state2.missedCalls =
          (state.missedCalls ++ [call]).drop
            (state.missedCalls.length + 1 - state.maxBufferSize) ∧
        state2.missedCalls.length ≤ state.maxBufferSize) ∧
      ((state.livefeed.IsEnabled call &&
          (!rm.requiresUserAuth || userHasAccess state.user call)) = false →
        state2.missedCalls = state.missedCalls) := by
  refine ⟨bufferStep rm.requiresUserAuth rm.holdDuration now call state, ?_, ?_, ?_, ?_, ?_, ?_, ?_⟩
  · unfold ReconnectionManager.BufferCallForDisconnected
    rw [henabled]
    simp only [Bool.true_eq_false, if_false]
    rw [findState_map, hfound]
    rfl
  · unfold bufferStep
    split <;> try rfl
    split <;> try rfl
    split <;> try rfl
    split <;> rfl
  · unfold bufferStep
    split <;> try rfl
    split <;> try rfl
    split <;> try rfl
    split <;> rfl
  · unfold bufferStep
    split <;> try rfl
    split <;> try rfl
    split <;> try rfl
    split <;> rfl
  · unfold bufferStep
    split <;> try rfl
    split <;> try rfl
    split <;> try rfl
    split <;> rfl
  · intro hpass
    rw [Bool.and_eq_true] at hpass
    obtain ⟨hfilter, hauth⟩ := hpass
    have hcond : (rm.requiresUserAuth && !userHasAccess state.user call) = false := by
      cases hr : rm.requiresUserAuth <;> cases ha : userHasAccess state.user call <;>
        simp_all
    have hstep : bufferStep rm.requiresUserAuth rm.holdDuration now call state =
        (if state.missedCalls.length < state.maxBufferSize then
          { state with missedCalls := state.missedCalls ++ [call] }
        else
          { state with missedCalls := state.missedCalls.drop 1 ++ [call] }) := by
      unfold bufferStep
      rw [if_neg hgrace, hfilter]
      simp only [Bool.true_eq_false, if_false]
      rw [hcond]
      simp only [Bool.false_eq_true, if_false]
    rw [hstep]
    by_cases hfull : state.missedCalls.length < state.maxBufferSize
    · rw [if_pos hfull]
      have hz : state.missedCalls.length + 1 - state.maxBufferSize = 0 := by omega
      rw [hz, List.drop_zero]
      constructor
      · rfl
      · simp only [List.length_append, List.length_cons, List.length_nil]
        omega
    · rw [if_neg hfull]
      have heq : state.missedCalls.length = state.maxBufferSize := by omega
      have h1 : state.missedCalls.length + 1 - state.maxBufferSize = 1 := by omega
      rw [h1, List.drop_append_of_le_length (by omega)]
      constructor
      · rfl
      · simp only [List.length_append, List.length_cons, List.length_nil,
          List.length_drop]
        omega
  · intro hpass
    unfold bufferStep
    rw [if_neg hgrace]
    cases hf : state.livefeed.IsEnabled call with
    | false => rfl
    | true =>
      rw [hf] at hpass
      simp only [Bool.true_and] at hpass
      have hcond : (rm.requiresUserAuth && !userHasAccess state.user call) = true := by
        cases hr : rm.requiresUserAuth <;> cases ha : userHasAccess state.user call <;>
          simp_all
      rw [hcond]
      rfl

/-- Witness for the amended C1 at a concrete input: buffering a concrete
call against `c1RM`, whose single record is inside its grace window. -/
theorem buffer_call_amended_witness :
    c1RM.enabled = true ∧
    (∃ state2,
      findState (c1RM.BufferCallForDisconnected 0 c1Call).states "pin:p" = some state2 ∧
      state2.user = c1State.user ∧ state2.livefeed = c1State.livefeed ∧
      state2.lastSeen = c1State.lastSeen ∧ state2.maxBufferSize = c1State.maxBufferSize ∧
      ((c1State.livefeed.IsEnabled c1Call &&
          (!c1RM.requiresUserAuth || userHasAccess c1State.user c1Call)) = true →
        state2.missedCalls =
          (c1State.missedCalls ++ [c1Call]).drop
            (c1State.missedCalls.length + 1 - c1State.maxBufferSize) ∧
        state2.missedCalls.length ≤ c1State.maxBufferSize) ∧
      ((c1State.livefeed.IsEnabled c1Call &&
          (!c1RM.requiresUserAuth || userHasAccess c1State.user c1Call)) = false →
        state2.missedCalls = c1State.missedCalls)) :=
  ⟨rfl, buffer_call_amended c1RM 0 c1Call "pin:p" c1State rfl (by decide) (by decide)
    (by decide) (by decide)⟩

/-! Claim C2 — replay of buffered calls on reconnection. -/

/-- C2: whenever `RestoreClientState` finds a non-expired
disconnected-state record for the reconnecting session's user, it reports
success, installs the stored frozen filter matrix on the new session, and
delivers the record's buffered calls to the new session's outbox in the
FIFO order in which they were buffered — the delivered messages are the
longest prefix of the buffer that fits in the outbox, so delivery stops at
the first send the full outbox refuses. -/
theorem restore_replays (rm : ReconnectionManager) (now : Nat) (client : Client)
    (user : User) (state : DisconnectedClientState)
    (henabled : rm.enabled = true)
    (huser : client.user = some user)
    (hfound : findState rm.states (rm.getUserKey user) = some state)
    (hgrace : ¬ rm.holdDuration < now - state.lastSeen) :
    (rm.RestoreClientState now client).2.2 = true ∧
    (rm.RestoreClientState now client).2.1.livefeed = state.livefeed ∧
    (rm.RestoreClientState now client).2.1.send.msgs =
      client.send.msgs ++
        (state.missedCalls.take (client.send.capacity - client.send.msgs.length)).map
          (fun c => { command := MessageCommandCall
                      payload := MessagePayload.call c }) := by
  unfold ReconnectionManager.RestoreClientState
  rw [huser]
  simp only [henabled, Bool.true_eq_false, if_false]
  rw [hfound]
  simp only [if_neg hgrace]
  exact ⟨trivial, trivial, by rw [(sendBuffered_spec state.missedCalls client.send).1]⟩

/-- The reconnection manager used by the C2 witness: one record for the
user with PIN "q", two buffered calls, inside the grace window. -/
def c2RM : ReconnectionManager :=
  { states := [("pin:q",
      { user := { id := 0, pin := "q", systems := Scope.wildcard,
                  talkgroups := Scope.wildcard, pinExpiresAt := 0 }
        lastSeen := 0
        missedCalls :=
          [{ id := 1, systemRef := 1, talkgroupRef := 100, audio := [], audioMime := "",
             audioFilename := "" },
           { id := 2, systemRef := 1, talkgroupRef := 100, audio := [], audioMime := "",
             audioFilename := "" }]
        livefeed := { matrix := [(1, [(100, true)])] }
        maxBufferSize := 3 })]
    holdDuration := 10
    maxBufferSize := 3
    enabled := true
    requiresUserAuth := true }

/-- The reconnecting session used by the C2 witness: same user, an outbox
with room for one message only. -/
def c2Client : Client :=
  { user := some { id := 0, pin := "q", systems := Scope.wildcard,
                   talkgroups := Scope.wildcard, pinExpiresAt := 0 }
    livefeed := { matrix := [] }
    send := { capacity := 1, msgs := [] } }

/-- Witness for C2 at a concrete input: replaying two buffered calls into
a one-slot outbox delivers exactly the first buffered call. -/
theorem restore_replays_witness :
    (c2RM.RestoreClientState 5 c2Client).2.2 = true ∧
    (c2RM.RestoreClientState 5 c2Client).2.1.livefeed =
      Livefeed.mk [(1, [(100, true)])] ∧
    (c2RM.RestoreClientState 5 c2Client).2.1.send.msgs =
      [] ++ ([{ id := 1, systemRef := 1, talkgroupRef := 100, audio := [], audioMime := "",
                audioFilename := "" : Call }].map
          (fun c => { command := MessageCommandCall
                      payload := MessagePayload.call c })) :=
  restore_replays c2RM 5 c2Client
    { id := 0, pin := "q", systems := Scope.wildcard, talkgroups := Scope.wildcard,
      pinExpiresAt := 0 }
    { user := { id := 0, pin := "q", systems := Scope.wildcard,
                talkgroups := Scope.wildcard, pinExpiresAt := 0 }
      lastSeen := 0
      missedCalls :=
        [{ id := 1, systemRef := 1, talkgroupRef := 100, audio := [], audioMime := "",
           audioFilename := "" },
         { id := 2, systemRef := 1, talkgroupRef := 100, audio := [], audioMime := "",
           audioFilename := "" }]
      livefeed := { matrix := [(1, [(100, true)])] }
      maxBufferSize := 3 }
    rfl rfl (by decide) (by decide)

/-! Claim C3 — expired records yield nothing. -/

/-- C3: a disconnected-state record older than the grace window yields
nothing — reconnecting after more than the grace duration makes
`RestoreClientState` delete the record, leave the session untouched (no
filter installed, no calls replayed) and report failure; such an expired
record is also skipped by `BufferCallForDisconnected` (its buffer stays
as it was), and the periodic cleanup sweep removes it. -/
theorem grace_expiry (rm : ReconnectionManager) (now : Nat) (client : Client)
    (user : User) (state : DisconnectedClientState)
    (henabled : rm.enabled = true)
    (huser : client.user = some user)
    (hfound : findState rm.states (rm.getUserKey user) = some state)
    (hexpired : rm.holdDuration < now - state.lastSeen) :
    (rm.RestoreClientState now client).2.2 = false ∧
    (rm.RestoreClientState now client).2.1 = client ∧
    findState (rm.RestoreClientState now client).1.states (rm.getUserKey user) = none ∧
    (∀ call, findState (rm.BufferCallForDisconnected now call).states
      (rm.getUserKey user) = some state) ∧
    (rm.getUserKey user, state) ∉ (rm.cleanupSweep now).states := by
  refine ⟨?_, ?_, ?_, ?_, ?_⟩
  · unfold ReconnectionManager.RestoreClientState
    rw [huser]
    simp only [henabled, Bool.true_eq_false, if_false]
    rw [hfound]
    simp only [if_pos hexpired]
  · unfold ReconnectionManager.RestoreClientState
    rw [huser]
    simp only [henabled, Bool.true_eq_false, if_false]
    rw [hfound]
    simp only [if_pos hexpired]
  · unfold ReconnectionManager.RestoreClientState
    rw [huser]
    simp only [henabled, Bool.true_eq_false, if_false]
    rw [hfound]
    simp only [if_pos hexpired]
    exact findState_removeState_self rm.states (rm.getUserKey user)
  · intro call
    unfold ReconnectionManager.BufferCallForDisconnected
    simp only [henabled, Bool.true_eq_false, if_false]
    rw [findState_map, hfound, Option.map_some']
    unfold bufferStep
    rw [if_pos hexpired]
  · intro hmem
    unfold ReconnectionManager.cleanupSweep at hmem
    simp only at hmem
    rcases List.mem_filter.1 hmem with ⟨_, hpred⟩
    simp only [Bool.not_eq_true', decide_eq_false_iff_not] at hpred
    exact hpred hexpired

/-- The user of the C3 witness record. -/
def c3User : User :=
  { id := 4, pin := "s", systems := Scope.wildcard, talkgroups := Scope.wildcard,
    pinExpiresAt := 0 }

/-- The expired record held by the C3 witness manager. -/
def c3State : DisconnectedClientState :=
  { user := c3User
    lastSeen := 0
    missedCalls :=
      [{ id := 9, systemRef := 1, talkgroupRef := 100, audio := [], audioMime := "",
         audioFilename := "" }]
    livefeed := { matrix := [(1, [(100, true)])] }
    maxBufferSize := 3 }

/-- The reconnection manager used by the C3 witness: one record, already
past the grace window at the witness instant. -/
def c3RM : ReconnectionManager :=
  { states := [("id:4", c3State)]
    holdDuration := 10
    maxBufferSize := 3
    enabled := true
    requiresUserAuth := true }

/-- The reconnecting session used by the C3 witness. -/
def c3Client : Client :=
  { user := some c3User
    livefeed := { matrix := [] }
    send := { capacity := 8, msgs := [] } }

/-- Witness for C3 at a concrete input: reconnecting 60 time units after
`lastSeen` with a 10-unit grace window fails and deletes the record. -/
theorem grace_expiry_witness :
    (c3RM.RestoreClientState 60 c3Client).2.2 = false ∧
    (c3RM.RestoreClientState 60 c3Client).2.1 = c3Client ∧
    findState (c3RM.RestoreClientState 60 c3Client).1.states
      (c3RM.getUserKey c3User) = none ∧
    (∀ call, findState (c3RM.BufferCallForDisconnected 60 call).states
      (c3RM.getUserKey c3User) = some c3State) ∧
    (c3RM.getUserKey c3User, c3State) ∉ (c3RM.cleanupSweep 60).states :=
  grace_expiry c3RM 60 c3Client c3User c3State rfl rfl (by decide) (by decide)

/-! Claim C4 — one disconnected-state record per user. -/

theorem restore_states_shape (rm : ReconnectionManager) (now : Nat) (client : Client) :
    (rm.RestoreClientState now client).1.states = rm.states ∨
    ∃ key, (rm.RestoreClientState now client).1.states = removeState rm.states key := by
  cases hcu : client.user with
  | none =>
    simp only [ReconnectionManager.RestoreClientState, hcu]
    exact Or.inl trivial
  | some u =>
    simp only [ReconnectionManager.RestoreClientState, hcu]
    by_cases hen : rm.enabled = false
    · rw [if_pos hen]
      exact Or.inl rfl
    · rw [if_neg hen]
      cases hfs : findState rm.states (rm.getUserKey u) with
      | none =>
        simp only [hfs]
        exact Or.inl trivial
      | some st =>
        simp only [hfs]
        by_cases hex : rm.holdDuration < now - st.lastSeen
        · rw [if_pos hex]
          exact Or.inr ⟨rm.getUserKey u, rfl⟩
        · rw [if_neg hex]
          exact Or.inr ⟨rm.getUserKey u, rfl⟩

/-- C4: records live in a map keyed by `getUserKey` (the user's numeric
ID when non-zero, the PIN otherwise), so under the map invariant — no key
occurs twice, which every operation of the manager preserves — the manager
holds at most one disconnected-state record per user at every instant; and
a successful reconnect consumes the record: after `RestoreClientState`
returns true, no record for that user remains. -/
theorem single_record_per_user (rm : ReconnectionManager) (now : Nat) (call : Call)
    (client clientR : Client) (user : User)
    (h : keysNodup rm.states) :
    (∀ u : User, countRecordsFor rm u ≤ 1) ∧
    keysNodup (rm.SaveDisconnectedState now client).states ∧
    keysNodup (rm.BufferCallForDisconnected now call).states ∧
    keysNodup (rm.RestoreClientState now clientR).1.states ∧
    keysNodup (rm.cleanupSweep now).states ∧
    ((rm.RestoreClientState now clientR).2.2 = true → clientR.user = some user →
      findState (rm.RestoreClientState now clientR).1.states (rm.getUserKey user) = none) := by
  refine ⟨?_, ?_, ?_, ?_, ?_, ?_⟩
  · intro u
    exact countP_key_le_one rm.states (rm.getUserKey u) h
  · cases hcu : client.user with
    | none =>
      simp only [ReconnectionManager.SaveDisconnectedState, hcu]
      exact h
    | some u =>
      simp only [ReconnectionManager.SaveDisconnectedState, hcu]
      by_cases hen : rm.enabled = false
      · rw [if_pos hen]
        exact h
      · rw [if_neg hen]
        exact keysNodup_setState rm.states (rm.getUserKey u) _ h
  · by_cases hen : rm.enabled = false
    · unfold ReconnectionManager.BufferCallForDisconnected
      rw [if_pos hen]
      exact h
    · unfold ReconnectionManager.BufferCallForDisconnected
      rw [if_neg hen]
      show (keysOf (rm.states.map (fun p =>
        (p.1, bufferStep rm.requiresUserAuth rm.holdDuration now call p.2)))).Nodup
      rw [keysOf_mapValues]
      exact h
  · rcases restore_states_shape rm now clientR with hshape | ⟨key, hshape⟩
    · rw [hshape]
      exact h
    · rw [hshape]
      exact keysNodup_removeState rm.states key h
  · unfold keysNodup keysOf at h
    unfold ReconnectionManager.cleanupSweep keysNodup keysOf
    exact List.Nodup.sublist
      (List.Sublist.map (fun p => p.1) (List.filter_sublist rm.states)) h
  · intro htrue huser
    simp only [ReconnectionManager.RestoreClientState, huser] at htrue ⊢
    by_cases hen : rm.enabled = false
    · rw [if_pos hen] at htrue
      exact (Bool.false_ne_true htrue).elim
    · rw [if_neg hen] at htrue ⊢
      cases hfs : findState rm.states (rm.getUserKey user) with
      | none =>
        simp only [hfs] at htrue
        exact (Bool.false_ne_true htrue).elim
      | some st =>
        simp only [hfs] at htrue ⊢
        by_cases hex : rm.holdDuration < now - st.lastSeen
        · rw [if_pos hex] at htrue
          exact (Bool.false_ne_true htrue).elim
        · rw [if_neg hex]
          exact findState_removeState_self rm.states (rm.getUserKey user)

/-- The user of the C4 witness. -/
def c4User : User :=
  { id := 2, pin := "t", systems := Scope.wildcard, talkgroups := Scope.wildcard,
    pinExpiresAt := 0 }

/-- The reconnection manager of the C4 witness: one record for `c4User`,
keyed by the numeric ID. -/
def c4RM : ReconnectionManager :=
  { states := [("id:2",
      { user := c4User
        lastSeen := 0
        missedCalls := []
        livefeed := { matrix := [] }
        maxBufferSize := 2 })]
    holdDuration := 10
    maxBufferSize := 2
    enabled := true
    requiresUserAuth := true }

/-- The reconnecting session of the C4 witness. -/
def c4Client : Client :=
  { user := some c4User
    livefeed := { matrix := [] }
    send := { capacity := 1, msgs := [] } }

/-- Witness for C4 at a concrete input: under the concrete map invariant,
`c4RM` holds at most one record for `c4User`, and the record is gone after
the successful reconnect. -/
theorem single_record_per_user_witness :
    keysNodup c4RM.states ∧
    countRecordsFor c4RM c4User ≤ 1 ∧
    findState (c4RM.RestoreClientState 0 c4Client).1.states
      (c4RM.getUserKey c4User) = none :=
  ⟨by unfold keysNodup; decide,
   (single_record_per_user c4RM 0 c1Call c4Client c4Client c4User
     (by unfold keysNodup; decide)).1 c4User,
   (single_record_per_user c4RM 0 c1Call c4Client c4Client c4User
     (by unfold keysNodup; decide)).2.2.2.2.2 (by decide) rfl⟩

/-! Helper lemmas about the search engine. -/

theorem sortRows_length (rows : List LogRow) (options : LogsSearchOptions) :
    (sortRows rows options).length = rows.length := by
  unfold sortRows
  by_cases hs : sortDesc options = true
  · rw [if_pos hs, List.length_insertionSort]
  · rw [if_neg hs, List.length_insertionSort]

theorem mem_sortRows (rows : List LogRow) (options : LogsSearchOptions) (row : LogRow)
    (h : row ∈ sortRows rows options) : row ∈ rows := by
  unfold sortRows at h
  by_cases hs : sortDesc options = true
  · rw [if_pos hs] at h
    exact (List.mem_insertionSort _).1 h
  · rw [if_neg hs] at h
    exact (List.mem_insertionSort _).1 h

theorem fetchRows_length (db : List LogRow) (options : LogsSearchOptions) (now : Int) :
    (fetchRows db options now).length =
      min (effLimit options + 1)
        ((db.filter (matchRow options now)).length - effOffset options) := by
  unfold fetchRows
  rw [List.length_take, List.length_drop, sortRows_length]

theorem mem_fetchRows (db : List LogRow) (options : LogsSearchOptions) (now : Int)
    (row : LogRow) (h : row ∈ fetchRows db options now) :
    matchRow options now row = true := by
  unfold fetchRows at h
  exact (List.mem_filter.1 (mem_sortRows _ _ _
    (List.mem_of_mem_drop (List.mem_of_mem_take h)))).2

theorem processFetched_total (limit : Nat) (rows : List LogRow) (page : List Log) :
    (processFetched limit rows page).2 = rows.length := by
  induction rows generalizing page with
  | nil => rfl
  | cons r rest ih =>
    show (processFetched limit rest _).2 + 1 = rest.length + 1
    rw [ih]

theorem processFetched_page_le (limit : Nat) (rows : List LogRow) (page : List Log)
    (h : page.length ≤ limit) : (processFetched limit rows page).1.length ≤ limit := by
  induction rows generalizing page with
  | nil => exact h
  | cons r rest ih =>
    have h2 : (match scanRow r with
        | some l => if page.length < limit then page ++ [l] else page
        | none => page).length ≤ limit := by
      cases hsc : scanRow r with
      | none => exact h
      | some l =>
        by_cases hlt : page.length < limit
        · simp only [hlt, if_true, List.length_append, List.length_cons,
            List.length_nil]
          omega
        · simp only [hlt, if_false]
          exact h
    exact ih _ h2

theorem processFetched_mem (limit : Nat) (rows : List LogRow) (page : List Log)
    (l : Log) (h : l ∈ (processFetched limit rows page).1) :
    l ∈ page ∨ ∃ row ∈ rows, scanRow row = some l := by
  induction rows generalizing page with
  | nil => exact Or.inl h
  | cons r rest ih =>
    have h2 : l ∈ (processFetched limit rest (match scanRow r with
        | some l2 => if page.length < limit then page ++ [l2] else page
        | none => page)).1 := h
    rcases ih _ h2 with hmem | ⟨row, hrow, hsc⟩
    · cases hsc : scanRow r with
      | none =>
        simp only [hsc] at hmem
        exact Or.inl hmem
      | some l2 =>
        simp only [hsc] at hmem
        by_cases hlt : page.length < limit
        · rw [if_pos hlt] at hmem
          rcases List.mem_append.1 hmem with h1 | h2b
          · exact Or.inl h1
          · rcases List.mem_singleton.1 h2b with rfl
            exact Or.inr ⟨r, List.mem_cons_self r rest, hsc⟩
        · rw [if_neg hlt] at hmem
          exact Or.inl hmem
    · exact Or.inr ⟨row, List.mem_cons_of_mem r hrow, hsc⟩

theorem scanRow_timestamp (row : LogRow) (l : Log) (h : scanRow row = some l) :
    row.timestamp = some l.dateTime ∧ 0 < l.dateTime ∧ yearInRange l.dateTime = true := by
  unfold scanRow at h
  repeat' split at h
  all_goals try exact (Option.noConfusion h)
  rcases Option.some.inj h with rfl
  simp_all

/-! Claim C6 — pagination laws of `Logs.Search`. -/

/-- C6: the paginated search fetches `limit+1` rows past the offset, and
its result satisfies the pagination laws — `hasMore` is true exactly when
the store contains more than `limit` matching rows beyond the offset, the
page holds at most `limit` entries, and `count` equals
`offset + len + 1` when `hasMore` and `offset + len` otherwise. -/
theorem search_pagination (db : List LogRow) (options : LogsSearchOptions) (now : Int) :
    (fetchRows db options now).length =
      min (effLimit options + 1)
        ((db.filter (matchRow options now)).length - effOffset options) ∧
    ((Logs.Search db options now).hasMore = true ↔
      effOffset options + effLimit options < (db.filter (matchRow options now)).length) ∧
    (Logs.Search db options now).logs.length ≤ effLimit options ∧
    (Logs.Search db options now).count =
      (if (Logs.Search db options now).hasMore = true then
        effOffset options + (Logs.Search db options now).logs.length + 1
      else effOffset options + (Logs.Search db options now).logs.length) := by
  refine ⟨fetchRows_length db options now, ?_, ?_, ?_⟩
  · simp only [Logs.Search]
    rw [decide_eq_true_eq, processFetched_total, fetchRows_length]
    omega
  · exact processFetched_page_le _ _ _ (Nat.zero_le _)
  · simp only [Logs.Search]
    by_cases hc : effLimit options <
        (processFetched (effLimit options) (fetchRows db options now) []).2
    · rw [if_pos hc, if_pos (decide_eq_true hc)]
    · rw [if_neg hc, if_neg (fun hdec => hc (of_decide_eq_true hdec))]

/-! Claim C7 — timestamp hygiene of `Logs.Search`. -/

/-- C7: no entry returned by the search has a timestamp whose year falls
outside 1..9999; the scan loop counts every fetched row toward the total
that decides `hasMore`, and a fetched row with an out-of-range timestamp
is rejected by the row validation, hence silently omitted from the page
while still counted. -/
theorem search_timestamp_hygiene (db : List LogRow) (options : LogsSearchOptions)
    (now : Int) :
    (∀ l ∈ (Logs.Search db options now).logs, yearInRange l.dateTime = true) ∧
    (∀ limit : Nat, ∀ fetched : List LogRow,
      (processFetched limit fetched []).2 = fetched.length) ∧
    (∀ row : LogRow, ∀ t : Int, row.timestamp = some t → yearInRange t = false →
      scanRow row = none) := by
  refine ⟨?_, ?_, ?_⟩
  · intro l hl
    have hl2 : l ∈ (processFetched (effLimit options) (fetchRows db options now) []).1 := hl
    rcases processFetched_mem _ _ _ _ hl2 with hmem | ⟨row, _, hsc⟩
    · exact absurd hmem (List.not_mem_nil l)
    · exact (scanRow_timestamp row l hsc).2.2
  · intro limit fetched
    exact processFetched_total limit fetched []
  · intro row t hts hyr
    cases hsc : scanRow row with
    | none => rfl
    | some l =>
      obtain ⟨hts2, _, hyr2⟩ := scanRow_timestamp row l hsc
      rw [hts] at hts2
      rw [← Option.some.inj hts2] at hyr2
      rw [hyr] at hyr2
      exact absurd hyr2 Bool.false_ne_true

/-- The valid row of the C7 witness database. -/
def c7Row : LogRow :=
  { logId := some 5, level := some "info", message := some "m", timestamp := some 1000 }

/-- Search options with every field absent (all Go type switches take
their default branch). -/
def c7options : LogsSearchOptions :=
  { date := none, level := none, limit := none, offset := none, keyword := none,
    sort := none }

/-- The entry the C7 witness search returns. -/
def c7Log : Log :=
  { id := 5, dateTime := 1000, level := "info", message := "m" }

/-- A fetched row carrying the first out-of-range millisecond value, used
by the C7 witness. -/
def c7BadRow : LogRow :=
  { logId := some 1, level := some "e", message := some "x",
    timestamp := some 253402300800000 }

/-- Witness for C7 at a concrete input: the returned entry of a concrete
search has an in-range timestamp, and a concrete row carrying the first
out-of-range millisecond value is rejected by the row validation. -/
theorem search_timestamp_hygiene_witness :
    yearInRange c7Log.dateTime = true ∧ scanRow c7BadRow = none :=
  ⟨(search_timestamp_hygiene [c7Row] c7options 0).1 c7Log (by decide),
   (search_timestamp_hygiene [c7Row] c7options 0).2.2 c7BadRow 253402300800000
     rfl (by decide)⟩

/-! Claim C8 — default 24-hour look-back window. -/

/-- C8: with descending sort and no date option the search query
restricts matches to rows whose timestamp is at least `now` minus 24
hours; with ascending sort and no date option no such window is applied —
the WHERE clause degenerates to the level, keyword and clamp conditions,
whatever those options are. -/
theorem search_default_lookback (options : LogsSearchOptions) (now : Int)
    (row : LogRow) (hdate : options.date = none) :
    (sortDesc options = true → matchRow options now row = true →
      ∃ t, row.timestamp = some t ∧ now - 86400000 ≤ t) ∧
    (sortDesc options = false →
      matchRow options now row =
        (levelCond options row && keywordCond options row && clampCond row)) := by
  constructor
  · intro hdesc hmatch
    unfold matchRow dateCond at hmatch
    simp only [hdate, hdesc, if_true] at hmatch
    rw [Bool.and_eq_true, Bool.and_eq_true, Bool.and_eq_true] at hmatch
    have htsge := hmatch.2
    unfold tsGe at htsge
    cases hts : row.timestamp with
    | none =>
      rw [hts] at htsge
      exact absurd htsge Bool.false_ne_true
    | some t =>
      rw [hts] at htsge
      exact ⟨t, rfl, of_decide_eq_true htsge⟩
  · intro hasc
    unfold matchRow dateCond
    simp only [hdate, hasc, Bool.false_eq_true, if_false]
    rw [Bool.and_true]

/-- The descending-sort, no-date options of the C8 witness. -/
def c8options : LogsSearchOptions :=
  { date := none, level := none, limit := none, offset := none, keyword := none,
    sort := some (-1) }

/-- A matching row of the C8 witness dated within the default look-back
window. -/
def c8Row : LogRow :=
  { logId := some 1, level := some "info", message := some "m", timestamp := some 500 }

/-- Witness for C8 at a concrete input: a row matching a descending
no-date search at time 86400100 must carry a timestamp not older than 24
hours, i.e. at least 100. -/
theorem search_default_lookback_witness :
    ∃ t, c8Row.timestamp = some t ∧ (86400100 : Int) - 86400000 ≤ t :=
  (search_default_lookback c8options 86400100 c8Row rfl).1 rfl (by decide)

/-! Claim C10 — silent dropping of malformed fetched rows. -/

/-- The rows of the C10 witness database: both pass the SQL WHERE clause
but carry a NULL id, so the scan loop drops them from the page while still
counting them. -/
def c10Row1 : LogRow :=
  { logId := none, level := some "info", message := some "m", timestamp := some 100 }

/-- Second malformed row of the C10 witness database. -/
def c10Row2 : LogRow :=
  { logId := none, level := some "warn", message := some "n", timestamp := some 200 }

/-- Options requesting a single-entry page for the C10 witness search. -/
def c10options : LogsSearchOptions :=
  { date := none, level := none, limit := some 1, offset := none, keyword := none,
    sort := none }

/-- C10: a fetched row whose id is NULL, whose level or message is NULL
or empty, or whose timestamp is not a positive in-range integer is dropped
from the returned page by the scan loop while still being counted toward
the row total that determines `hasMore` and `count`; consequently a page
may hold fewer than `limit` entries even though `hasMore` is true, as the
concrete search over two malformed rows shows. -/
theorem search_row_validation :
    (∀ limit : Nat, ∀ fetched : List LogRow,
      (processFetched limit fetched []).2 = fetched.length) ∧
    (∀ row : LogRow,
      (row.logId = none ∨ row.level = none ∨
        (∃ lv, row.level = some lv ∧ lv.length = 0) ∨
        row.message = none ∨ (∃ ms, row.message = some ms ∧ ms.length = 0) ∨
        row.timestamp = none ∨
        (∃ t : Int, row.timestamp = some t ∧ t ≤ 0)) → scanRow row = none) ∧
    ((Logs.Search [c10Row1, c10Row2] c10options 0).hasMore = true ∧
      (Logs.Search [c10Row1, c10Row2] c10options 0).logs.length <
        effLimit c10options) := by
  refine ⟨?_, ?_, ?_⟩
  · intro limit fetched
    exact processFetched_total limit fetched []
  · intro row hbad
    unfold scanRow
    repeat' split
    all_goals try rfl
    exfalso
    rcases hbad with h | h | ⟨lv, hlv, hlen⟩ | h | ⟨ms, hms, hmslen⟩ | h |
      ⟨t, hts, hneg⟩ <;> simp_all
    all_goals omega
  · constructor
    · decide
    · decide

/-- Witness for C10 at a concrete input: a row with a NULL id is dropped
by the row validation. -/
theorem search_row_validation_witness :
    scanRow c10Row1 = none :=
  search_row_validation.2.1 c10Row1 (Or.inl rfl)
